import Mathlib

/-!
Verification of the CHIP-8 interpreter core (`chip-8/src/lib.rs`).

The Rust source is shallowly embedded: each struct becomes a Lean structure,
byte arrays become functions `Nat → Nat` holding values below 256, `u8`/`u16`
arithmetic is modelled on `Nat` with explicit `% 256` / `% 65536` where the
source wraps, and every operation that can abort with a Rust runtime panic
(unchecked slice/array indexing, integer underflow, the explicit capacity
check in `Memory::load_rom`) returns `Except RtError`.

Constants of the source: SCREEN_WIDTH = 64, SCREEN_HEIGHT = 32,
NUM_KEYS = 16, MEMORY_SIZE = 4096, NUM_REGISTERS = 16, START_ADDRESS = 512,
STACK_SIZE = 16.  They appear as literals below.
-/

/-- Ways the Rust core can abort at runtime.  The source defines no error
type of its own: `Memory::load_rom` raises an explicit runtime abort with the
message "ROM too large to fit in memory", and every other failure is an
implicit Rust trap (array/slice index out of bounds, or integer underflow
in `Stack::pop` when `sp = 0`). -/
inductive RtError where
  /-- the explicit capacity abort in `Memory::load_rom` -/
  | romTooLarge
  /-- Rust index-out-of-bounds trap from unchecked indexing/slicing -/
  | indexOutOfBounds
  /-- Rust integer-underflow trap (`sp -= 1` with `sp = 0`) -/
  | subOverflow
  deriving DecidableEq

/-- Point update of a function-represented array: models `a[i] = v`. -/
def updateFn {α : Type} (f : Nat → α) (i : Nat) (v : α) : Nat → α :=
  fun n => if n = i then v else f n

/-- `struct Memory { data: [u8; 4096], pc: u16 }` -/
structure Memory where
  data : Nat → Nat
  pc : Nat

/-- `struct Stack { stack: [u16; 16], sp: u16 }` -/
structure Stack where
  stack : Nat → Nat
  sp : Nat

/-- `struct Screen { pixels: [bool; 64 * 32] }`, indexed by `y * 64 + x`. -/
structure Screen where
  pixels : Nat → Bool

/-- `Memory::default()` -/
def Memory.init : Memory := { data := fun _ => 0, pc := 512 }

/-- `Stack::default()` -/
def Stack.init : Stack := { stack := fun _ => 0, sp := 0 }

/-- `Screen::default()` -/
def Screen.init : Screen := { pixels := fun _ => false }

/-- `Memory::next`: `self.pc += 2`. -/
def Memory.next (m : Memory) : Memory := { m with pc := m.pc + 2 }

/-- `Memory::prev`: `self.pc -= 2` (called only right after a fetch, so the
subtraction cannot underflow there). -/
def Memory.prev (m : Memory) : Memory := { m with pc := m.pc - 2 }

/-- `Memory::fetch_opcode`: reads `data[pc]` and `data[pc + 1]`, combines them
big-endian, then advances `pc` by 2.  The source indexes the 4096-byte array
unchecked, so when `pc + 1 > 4095` the Rust program traps with an
index-out-of-bounds abort; that trap is the `.error` branch here. -/
def Memory.fetch_opcode (m : Memory) : Except RtError (Nat × Memory) :=
  if m.pc + 1 ≤ 4095 then
    .ok (m.data m.pc <<< 8 ||| m.data (m.pc + 1), m.next)
  else
    .error .indexOutOfBounds

/-- `Memory::get_bytes`: `&self.data[start .. start + length]`.  An unchecked
slice: it traps when `start + length > 4096`. -/
def Memory.get_bytes (m : Memory) (start length : Nat) : Except RtError (List Nat) :=
  if start + length ≤ 4096 then
    .ok ((List.range length).map fun k => m.data (start + k))
  else
    .error .indexOutOfBounds

/-- `Memory::load_rom`: copies the ROM into `data[512 .. 512 + len]`, after
an explicit capacity check `start + data.len() > MEMORY_SIZE` that aborts
with "ROM too large to fit in memory". -/
def Memory.load_rom (m : Memory) (rom : List Nat) : Except RtError Memory :=
  if 512 + rom.length > 4096 then
    .error .romTooLarge
  else
    .ok { m with data := (fun n =>
      if 512 ≤ n ∧ n < 512 + rom.length then rom.getD (n - 512) 0 else m.data n) }

/-- `Stack::push`: `self.stack[self.sp] = value; self.sp += 1`.  The indexing
is unchecked, so a push with `sp = 16` (a 17th frame) traps with an
index-out-of-bounds abort; no dedicated overflow error exists in the code. -/
def Stack.push (st : Stack) (value : Nat) : Except RtError Stack :=
  if st.sp < 16 then
    .ok { stack := updateFn st.stack st.sp value, sp := st.sp + 1 }
  else
    .error .indexOutOfBounds

/-- `Stack::pop`: `self.sp -= 1; self.stack[self.sp]`.  With `sp = 0` the
`u16` subtraction traps (integer underflow); no dedicated underflow error
exists in the code. -/
def Stack.pop (st : Stack) : Except RtError (Nat × Stack) :=
  if st.sp = 0 then
    .error .subOverflow
  else
    .ok (st.stack (st.sp - 1), { st with sp := st.sp - 1 })

/-- One iteration of the inner column loop of `Screen::draw_sprite`
(`for col in 0..8`): extract the bit, clip coordinates outside the
64 × 32 grid, otherwise record a collision on a set pixel and XOR-toggle it. -/
def pixelStep (x sy byte : Nat) (acc : Screen × Bool) (col : Nat) : Screen × Bool :=
  let pixel := byte >>> (7 - col) &&& 0x1
  let screen_x := x + col
  if 64 ≤ screen_x ∨ 32 ≤ sy then
    acc
  else
    let index := sy * 64 + screen_x
    if pixel = 1 then
      ({ pixels := updateFn acc.1.pixels index (!acc.1.pixels index) },
       acc.2 || acc.1.pixels index)
    else
      acc

/-- One iteration of the outer row loop of `Screen::draw_sprite`
(`for row in 0..height` with `sprite.get(row)`). -/
def rowStep (x y : Nat) (sprite : List Nat) (acc : Screen × Bool) (row : Nat) :
    Screen × Bool :=
  match sprite[row]? with
  | some byte => (List.range 8).foldl (pixelStep x (y + row) byte) acc
  | none => acc

/-- `Screen::draw_sprite`: XOR-composites `height` sprite rows at origin
`(x, y)`, returning the new screen and the collision flag. -/
def Screen.draw_sprite (scr : Screen) (x y height : Nat) (sprite : List Nat) :
    Screen × Bool :=
  (List.range height).foldl (rowStep x y sprite) (scr, false)

/-- `Screen::clear`: `self.pixels.fill(false)`. -/
def Screen.clear (_scr : Screen) : Screen := { pixels := fun _ => false }

/-- Helper for `position`: scans `fuel` indices starting at `start` and
returns the first index whose key is pressed. -/
def posAux (keys : Nat → Bool) (start : Nat) : Nat → Option Nat
  | 0 => none
  | fuel + 1 => if keys start then some start else posAux keys (start + 1) fuel

/-- `self.pressed_keys.iter().position(|&k| k)`: index of the first (lowest)
pressed key among the 16 keys, if any. -/
def position (keys : Nat → Bool) : Option Nat := posAux keys 0 16

/-- `struct Chip8 { .. }`: the composed machine state. -/
structure Chip8 where
  memory : Memory
  screen : Screen
  v_registers : Nat → Nat
  i_register : Nat
  stack : Stack
  pressed_keys : Nat → Bool
  delay_timer : Nat
  sound_timer : Nat

/-- `Chip8::default()` / `Chip8::new()` -/
def Chip8.init : Chip8 :=
  { memory := Memory.init, screen := Screen.init, v_registers := fun _ => 0,
    i_register := 0, stack := Stack.init, pressed_keys := fun _ => false,
    delay_timer := 0, sound_timer := 0 }

/-- First opcode nibble: `(opcode & 0xF000) >> 12`. -/
def nib1 (opcode : Nat) : Nat := (opcode &&& 0xF000) >>> 12

/-- Second opcode nibble: `(opcode & 0x0F00) >> 8`. -/
def nib2 (opcode : Nat) : Nat := (opcode &&& 0x0F00) >>> 8

/-- Third opcode nibble: `(opcode & 0x00F0) >> 4`. -/
def nib3 (opcode : Nat) : Nat := (opcode &&& 0x00F0) >>> 4

/-- Fourth opcode nibble: `opcode & 0x000F`. -/
def nib4 (opcode : Nat) : Nat := opcode &&& 0x000F

/-- `Chip8::cycle` advance-pc helper: `self.memory.next()`. -/
def Chip8.withNext (s : Chip8) : Chip8 := { s with memory := s.memory.next }

/-- Rewind helper for the key-wait opcode: `self.memory.prev()`. -/
def Chip8.withPrev (s : Chip8) : Chip8 := { s with memory := s.memory.prev }

/-- `Chip8::execute(opcode)`: the dispatch `match (digit1, digit2, digit3,
digit4)` translated arm by arm, in source order, as a chain of conditionals.
`randByte` threads the byte the source draws from the ambient thread-local
generator `rand::random::<u8>()` in the `Cxkk` arm; it is an explicit
argument here because a shallow embedding has no ambient randomness.
Arms whose memory / stack / key accesses are unchecked in Rust return the
corresponding trap as an `.error`. -/
def Chip8.execute (randByte : Nat) (opcode : Nat) (s : Chip8) : Except RtError Chip8 :=
  if nib1 opcode = 0 ∧ nib2 opcode = 0 ∧ nib3 opcode = 0xE ∧ nib4 opcode = 0 then
    -- 00E0: clear the display
    .ok { s with screen := s.screen.clear }
  else if nib1 opcode = 0 ∧ nib2 opcode = 0 ∧ nib3 opcode = 0xE ∧ nib4 opcode = 0xE then
    -- 00EE: return from subroutine
    match s.stack.pop with
    | .error e => .error e
    | .ok (return_address, st) =>
      .ok { s with stack := st, memory := { s.memory with pc := return_address } }
  else if nib1 opcode = 1 then
    -- 1nnn: jump to address nnn
    .ok { s with memory := { s.memory with pc := opcode &&& 0x0FFF } }
  else if nib1 opcode = 2 then
    -- 2nnn: call subroutine at nnn
    match s.stack.push s.memory.pc with
    | .error e => .error e
    | .ok st =>
      .ok { s with stack := st, memory := { s.memory with pc := opcode &&& 0x0FFF } }
  else if nib1 opcode = 3 then
    -- 3xkk: skip next instruction if Vx == kk
    if s.v_registers (nib2 opcode) = opcode &&& 0x00FF then .ok s.withNext else .ok s
  else if nib1 opcode = 4 then
    -- 4xkk: skip next instruction if Vx != kk
    if s.v_registers (nib2 opcode) ≠ opcode &&& 0x00FF then .ok s.withNext else .ok s
  else if nib1 opcode = 5 ∧ nib4 opcode = 0 then
    -- 5xy0: skip next instruction if Vx == Vy
    if s.v_registers (nib2 opcode) = s.v_registers (nib3 opcode) then .ok s.withNext
    else .ok s
  else if nib1 opcode = 6 then
    -- 6xkk: Vx = kk
    .ok { s with v_registers := updateFn s.v_registers (nib2 opcode) (opcode &&& 0x00FF) }
  else if nib1 opcode = 7 then
    -- 7xkk: Vx = Vx wrapping_add kk
    .ok { s with v_registers := (updateFn s.v_registers (nib2 opcode)
            ((s.v_registers (nib2 opcode) + (opcode &&& 0x00FF)) % 256)) }
  else if nib1 opcode = 8 ∧ nib4 opcode = 0 then
    -- 8xy0: Vx = Vy
    .ok { s with v_registers := (updateFn s.v_registers (nib2 opcode)
            (s.v_registers (nib3 opcode))) }
  else if nib1 opcode = 8 ∧ nib4 opcode = 1 then
    -- 8xy1: Vx |= Vy
    .ok { s with v_registers := (updateFn s.v_registers (nib2 opcode)
            (s.v_registers (nib2 opcode) ||| s.v_registers (nib3 opcode))) }
  else if nib1 opcode = 8 ∧ nib4 opcode = 2 then
    -- 8xy2: Vx &= Vy
    .ok { s with v_registers := (updateFn s.v_registers (nib2 opcode)
            (s.v_registers (nib2 opcode) &&& s.v_registers (nib3 opcode))) }
  else if nib1 opcode = 8 ∧ nib4 opcode = 3 then
    -- 8xy3: Vx ^= Vy
    .ok { s with v_registers := (updateFn s.v_registers (nib2 opcode)
            (s.v_registers (nib2 opcode) ^^^ s.v_registers (nib3 opcode))) }
  else if nib1 opcode = 8 ∧ nib4 opcode = 4 then
    -- 8xy4: (result, carry) = Vx.overflowing_add(Vy); Vx = result; VF = carry
    .ok { s with v_registers :=
      (updateFn
        (updateFn s.v_registers (nib2 opcode)
          ((s.v_registers (nib2 opcode) + s.v_registers (nib3 opcode)) % 256))
        0xF
        (if 255 < s.v_registers (nib2 opcode) + s.v_registers (nib3 opcode) then 1 else 0)) }
  else if nib1 opcode = 8 ∧ nib4 opcode = 5 then
    -- 8xy5: (result, borrow) = Vx.overflowing_sub(Vy); Vx = result; VF = !borrow
    .ok { s with v_registers :=
      (updateFn
        (updateFn s.v_registers (nib2 opcode)
          ((s.v_registers (nib2 opcode) + 256 - s.v_registers (nib3 opcode)) % 256))
        0xF
        (if s.v_registers (nib2 opcode) < s.v_registers (nib3 opcode) then 0 else 1)) }
  else if nib1 opcode = 8 ∧ nib4 opcode = 6 then
    -- 8xy6: VF = Vx & 1; Vx >>= 1  (the shift reads Vx after the VF write)
    let v1 := updateFn s.v_registers 0xF (s.v_registers (nib2 opcode) &&& 0x1)
    .ok { s with v_registers := updateFn v1 (nib2 opcode) (v1 (nib2 opcode) >>> 1) }
  else if nib1 opcode = 8 ∧ nib4 opcode = 7 then
    -- 8xy7: (result, borrow) = Vy.overflowing_sub(Vx); Vx = result; VF = !borrow
    .ok { s with v_registers :=
      (updateFn
        (updateFn s.v_registers (nib2 opcode)
          ((s.v_registers (nib3 opcode) + 256 - s.v_registers (nib2 opcode)) % 256))
        0xF
        (if s.v_registers (nib3 opcode) < s.v_registers (nib2 opcode) then 0 else 1)) }
  else if nib1 opcode = 8 ∧ nib4 opcode = 0xE then
    -- 8xyE: VF = Vx >> 7; Vx <<= 1  (the shift reads Vx after the VF write)
    let v1 := updateFn s.v_registers 0xF (s.v_registers (nib2 opcode) >>> 7)
    .ok { s with v_registers := updateFn v1 (nib2 opcode) ((v1 (nib2 opcode) <<< 1) % 256) }
  else if nib1 opcode = 9 ∧ nib4 opcode = 0 then
    -- 9xy0: skip next instruction if Vx != Vy
    if s.v_registers (nib2 opcode) ≠ s.v_registers (nib3 opcode) then .ok s.withNext
    else .ok s
  else if nib1 opcode = 0xA then
    -- Annn: I = nnn
    .ok { s with i_register := opcode &&& 0x0FFF }
  else if nib1 opcode = 0xB then
    -- Bnnn: jump to nnn + V0
    .ok { s with memory := { s.memory with pc := (opcode &&& 0x0FFF) + s.v_registers 0 } }
  else if nib1 opcode = 0xC then
    -- Cxkk: Vx = random byte & kk
    .ok { s with v_registers := (updateFn s.v_registers (nib2 opcode)
            (randByte &&& (opcode &&& 0x00FF))) }
  else if nib1 opcode = 0xD then
    -- Dxyn: draw sprite at (Vx % 64, Vy % 32), n rows fetched from memory at I
    match s.memory.get_bytes s.i_register (nib4 opcode) with
    | .error e => .error e
    | .ok sprite =>
      let x_coor := s.v_registers (nib2 opcode) % 64
      let y_coor := s.v_registers (nib3 opcode) % 32
      let v1 := updateFn s.v_registers 0xF 0
      let res := Screen.draw_sprite s.screen x_coor y_coor (nib4 opcode) sprite
      .ok { s with screen := res.1,
                   v_registers := updateFn v1 0xF (if res.2 then 1 else 0) }
  else if nib1 opcode = 0xE ∧ nib3 opcode = 9 ∧ nib4 opcode = 0xE then
    -- Ex9E: skip next instruction if key Vx is pressed (unchecked key index)
    if s.v_registers (nib2 opcode) < 16 then
      if s.pressed_keys (s.v_registers (nib2 opcode)) then .ok s.withNext else .ok s
    else .error .indexOutOfBounds
  else if nib1 opcode = 0xE ∧ nib3 opcode = 0xA ∧ nib4 opcode = 1 then
    -- ExA1: skip next instruction if key Vx is not pressed (unchecked key index)
    if s.v_registers (nib2 opcode) < 16 then
      if !s.pressed_keys (s.v_registers (nib2 opcode)) then .ok s.withNext else .ok s
    else .error .indexOutOfBounds
  else if nib1 opcode = 0xF ∧ nib3 opcode = 0 ∧ nib4 opcode = 7 then
    -- Fx07: Vx = delay timer
    .ok { s with v_registers := updateFn s.v_registers (nib2 opcode) s.delay_timer }
  else if nib1 opcode = 0xF ∧ nib3 opcode = 0 ∧ nib4 opcode = 0xA then
    -- Fx0A: wait for a key press; no key pressed rewinds pc by 2
    match position s.pressed_keys with
    | some pressed_key =>
      .ok { s with v_registers := updateFn s.v_registers (nib2 opcode) pressed_key }
    | none => .ok s.withPrev
  else if nib1 opcode = 0xF ∧ nib3 opcode = 1 ∧ nib4 opcode = 5 then
    -- Fx15: delay timer = Vx
    .ok { s with delay_timer := s.v_registers (nib2 opcode) }
  else if nib1 opcode = 0xF ∧ nib3 opcode = 1 ∧ nib4 opcode = 8 then
    -- Fx18: sound timer = Vx
    .ok { s with sound_timer := s.v_registers (nib2 opcode) }
  else if nib1 opcode = 0xF ∧ nib3 opcode = 1 ∧ nib4 opcode = 0xE then
    -- Fx1E: I = I wrapping_add Vx
    .ok { s with i_register := (s.i_register + s.v_registers (nib2 opcode)) % 65536 }
  else if nib1 opcode = 0xF ∧ nib3 opcode = 2 ∧ nib4 opcode = 9 then
    -- Fx29: I = Vx * 5 (glyph address)
    .ok { s with i_register := s.v_registers (nib2 opcode) * 5 }
  else if nib1 opcode = 0xF ∧ nib3 opcode = 3 ∧ nib4 opcode = 3 then
    -- Fx33: BCD of Vx stored at data[I], data[I+1], data[I+2] (unchecked writes)
    if s.i_register + 2 ≤ 4095 then
      .ok { s with memory := { s.memory with data :=
        (updateFn
          (updateFn
            (updateFn s.memory.data s.i_register (s.v_registers (nib2 opcode) / 100))
            (s.i_register + 1) (s.v_registers (nib2 opcode) / 10 % 10))
          (s.i_register + 2) (s.v_registers (nib2 opcode) % 10)) } }
    else .error .indexOutOfBounds
  else if nib1 opcode = 0xF ∧ nib3 opcode = 5 ∧ nib4 opcode = 5 then
    -- Fx55: data[I + offset] = V[offset] for offset in 0..=x (unchecked writes)
    if s.i_register + nib2 opcode ≤ 4095 then
      .ok { s with memory := { s.memory with data :=
        ((List.range (nib2 opcode + 1)).foldl
          (fun d off => updateFn d (s.i_register + off) (s.v_registers off))
          s.memory.data) } }
    else .error .indexOutOfBounds
  else if nib1 opcode = 0xF ∧ nib3 opcode = 6 ∧ nib4 opcode = 5 then
    -- Fx65: V[offset] = data[I + offset] for offset in 0..=x (unchecked reads)
    if s.i_register + nib2 opcode ≤ 4095 then
      .ok { s with v_registers :=
        ((List.range (nib2 opcode + 1)).foldl
          (fun v off => updateFn v off (s.memory.data (s.i_register + off)))
          s.v_registers) }
    else .error .indexOutOfBounds
  else
    -- unimplemented opcode: the source's catch-all arm does nothing at all
    .ok s

/-- `Chip8::cycle`: fetch one opcode (advancing pc by 2) and execute it. -/
def Chip8.cycle (randByte : Nat) (s : Chip8) : Except RtError Chip8 :=
  match s.memory.fetch_opcode with
  | .error e => .error e
  | .ok (opcode, m) => Chip8.execute randByte opcode { s with memory := m }

/-- `Chip8::load_rom`: delegates to `Memory::load_rom`. -/
def Chip8.load_rom (s : Chip8) (rom : List Nat) : Except RtError Chip8 :=
  match s.memory.load_rom rom with
  | .error e => .error e
  | .ok m => .ok { s with memory := m }

/-- `Chip8::set_pressed_keys`: wholesale replacement of the key snapshot. -/
def Chip8.set_pressed_keys (s : Chip8) (keys : Nat → Bool) : Chip8 :=
  { s with pressed_keys := keys }

/-- `Chip8::tick_timers`: decrement each timer that is positive. -/
def Chip8.tick_timers (s : Chip8) : Chip8 :=
  { s with delay_timer := if 0 < s.delay_timer then s.delay_timer - 1 else s.delay_timer,
           sound_timer := if 0 < s.sound_timer then s.sound_timer - 1 else s.sound_timer }

/-- Pushing a list of addresses in order (a sequence of CALLs). -/
def pushAll (addrs : List Nat) (st : Stack) : Except RtError Stack :=
  addrs.foldlM (fun acc a => acc.push a) st

/-- Popping `n` times (a sequence of RETURNs), collecting the popped
addresses in pop order. -/
def popAll : Nat → Stack → Except RtError (List Nat × Stack)
  | 0, st => .ok ([], st)
  | n + 1, st =>
    match st.pop with
    | .error e => .error e
    | .ok (v, st1) =>
      match popAll n st1 with
      | .error e => .error e
      | .ok (vs, st2) => .ok (v :: vs, st2)

/-- The guard of one sprite pixel: its column lands on screen and its bit is
set.  Mirrors the clip test and bit extraction of `Screen::draw_sprite`. -/
def colHitB (x sy byte col : Nat) : Bool :=
  decide (x + col < 64) && decide (sy < 32) && decide (byte >>> (7 - col) &&& 0x1 = 1)

/-- Whether sprite row `row` toggles screen cell `idx`. -/
def rowPixB (x y : Nat) (sprite : List Nat) (idx row : Nat) : Bool :=
  match sprite[row]? with
  | some byte => (List.range 8).any fun col =>
      colHitB x (y + row) byte col && decide (idx = (y + row) * 64 + (x + col))
  | none => false

/-- Whether sprite row `row` lands a set bit on an already-set cell of `scr`. -/
def rowCollB (x y : Nat) (sprite : List Nat) (scr : Screen) (row : Nat) : Bool :=
  match sprite[row]? with
  | some byte => (List.range 8).any fun col =>
      colHitB x (y + row) byte col && scr.pixels ((y + row) * 64 + (x + col))
  | none => false

/-- Which screen cells a `draw_sprite` call toggles: cell `idx` is covered
when some non-clipped set sprite bit maps to it. -/
def coversB (x y height : Nat) (sprite : List Nat) (idx : Nat) : Bool :=
  (List.range height).any (rowPixB x y sprite idx)

/-- Whether a `draw_sprite` call reports a collision against screen `scr`:
some non-clipped set sprite bit lands on an already-set cell of `scr`. -/
def spriteCollidesB (x y height : Nat) (sprite : List Nat) (scr : Screen) : Bool :=
  (List.range height).any (rowCollB x y sprite scr)

/-- An opcode matched by some non-catch-all arm of `Chip8::execute`.  The
disjuncts repeat, in order, exactly the conditions of the dispatch chain. -/
def knownOpcode (opcode : Nat) : Prop :=
  (nib1 opcode = 0 ∧ nib2 opcode = 0 ∧ nib3 opcode = 0xE ∧ nib4 opcode = 0) ∨
  (nib1 opcode = 0 ∧ nib2 opcode = 0 ∧ nib3 opcode = 0xE ∧ nib4 opcode = 0xE) ∨
  (nib1 opcode = 1) ∨
  (nib1 opcode = 2) ∨
  (nib1 opcode = 3) ∨
  (nib1 opcode = 4) ∨
  (nib1 opcode = 5 ∧ nib4 opcode = 0) ∨
  (nib1 opcode = 6) ∨
  (nib1 opcode = 7) ∨
  (nib1 opcode = 8 ∧ nib4 opcode = 0) ∨
  (nib1 opcode = 8 ∧ nib4 opcode = 1) ∨
  (nib1 opcode = 8 ∧ nib4 opcode = 2) ∨
  (nib1 opcode = 8 ∧ nib4 opcode = 3) ∨
  (nib1 opcode = 8 ∧ nib4 opcode = 4) ∨
  (nib1 opcode = 8 ∧ nib4 opcode = 5) ∨
  (nib1 opcode = 8 ∧ nib4 opcode = 6) ∨
  (nib1 opcode = 8 ∧ nib4 opcode = 7) ∨
  (nib1 opcode = 8 ∧ nib4 opcode = 0xE) ∨
  (nib1 opcode = 9 ∧ nib4 opcode = 0) ∨
  (nib1 opcode = 0xA) ∨
  (nib1 opcode = 0xB) ∨
  (nib1 opcode = 0xC) ∨
  (nib1 opcode = 0xD) ∨
  (nib1 opcode = 0xE ∧ nib3 opcode = 9 ∧ nib4 opcode = 0xE) ∨
  (nib1 opcode = 0xE ∧ nib3 opcode = 0xA ∧ nib4 opcode = 1) ∨
  (nib1 opcode = 0xF ∧ nib3 opcode = 0 ∧ nib4 opcode = 7) ∨
  (nib1 opcode = 0xF ∧ nib3 opcode = 0 ∧ nib4 opcode = 0xA) ∨
  (nib1 opcode = 0xF ∧ nib3 opcode = 1 ∧ nib4 opcode = 5) ∨
  (nib1 opcode = 0xF ∧ nib3 opcode = 1 ∧ nib4 opcode = 8) ∨
  (nib1 opcode = 0xF ∧ nib3 opcode = 1 ∧ nib4 opcode = 0xE) ∨
  (nib1 opcode = 0xF ∧ nib3 opcode = 2 ∧ nib4 opcode = 9) ∨
  (nib1 opcode = 0xF ∧ nib3 opcode = 3 ∧ nib4 opcode = 3) ∨
  (nib1 opcode = 0xF ∧ nib3 opcode = 5 ∧ nib4 opcode = 5) ∨
  (nib1 opcode = 0xF ∧ nib3 opcode = 6 ∧ nib4 opcode = 5)

/-- Machine about to fetch at pc = 4095, so the fetch of `data[pc + 1]`
indexes byte 4096 of a 4096-byte array. -/
def sFetchEdge : Chip8 :=
  { Chip8.init with memory := { Chip8.init.memory with pc := 4095 } }

/-- Machine with I = 4094: Fx33 writes `data[4096]`. -/
def sBcdEdge : Chip8 := { Chip8.init with i_register := 4094 }

/-- Machine with I = 4095: F155 / F165 touch `data[4096]`. -/
def sRegsEdge : Chip8 := { Chip8.init with i_register := 4095 }

/-- Machine with I = 4090: D007 slices `data[4090 .. 4097]`. -/
def sDrawEdge : Chip8 := { Chip8.init with i_register := 4090 }

/-- Machine whose next opcode is 0x0001, which matches no dispatch arm. -/
def sUnknown : Chip8 :=
  { Chip8.init with memory :=
      { Chip8.init.memory with data := (updateFn Chip8.init.memory.data 513 1) } }

/-- Machine with VF = 5 and V1 = 6, the operands for opcode 8F14. -/
def sAddVF : Chip8 :=
  { Chip8.init with v_registers := (updateFn (updateFn Chip8.init.v_registers 1 6) 15 5) }

/-- Machine with VF = 128, the operand for opcode 8F0E. -/
def sShlVF : Chip8 :=
  { Chip8.init with v_registers := (updateFn Chip8.init.v_registers 15 128) }

/-- Machine with V0 = 60, I = 512 and the single sprite row 0xFF at 512:
draws an 8-pixel row at origin column 60. -/
def sDraw60 : Chip8 :=
  { Chip8.init with
      v_registers := (updateFn Chip8.init.v_registers 0 60),
      i_register := 512,
      memory := { Chip8.init.memory with data := (updateFn Chip8.init.memory.data 512 0xFF) } }

/-- Machine whose next opcode is F50A (wait for key into V5), with key 3 and
key 9 pressed. -/
def sKeyWait : Chip8 :=
  { Chip8.init with
      memory := { Chip8.init.memory with data :=
        (updateFn (updateFn Chip8.init.memory.data 512 0xF5) 513 0x0A) },
      pressed_keys := (fun n => decide (n = 3) || decide (n = 9)) }

/-- Machine with V1 = 200 and V2 = 100, operands for a carrying 8124. -/
def sAddWit : Chip8 :=
  { Chip8.init with v_registers := (updateFn (updateFn Chip8.init.v_registers 1 200) 2 100) }

/-! ### Arithmetic bridges for the nibble extractors -/

theorem and_mask_shift (n k : Nat) : (n &&& (15 <<< k)) >>> k = n / 2 ^ k % 16 := by
  apply Nat.eq_of_testBit_eq
  intro i
  rw [Nat.testBit_shiftRight, Nat.testBit_and, Nat.testBit_shiftLeft]
  rw [show (16 : Nat) = 2 ^ 4 by norm_num, ← Nat.shiftRight_eq_div_pow]
  rw [Nat.testBit_mod_two_pow, Nat.testBit_shiftRight]
  have h1 : k + i - k = i := by omega
  have h2 : (decide (k + i ≥ k)) = true := by simp
  rw [h1, h2]
  have h3 : Nat.testBit 15 i = decide (i < 4) := by
    rw [show (15 : Nat) = 2 ^ 4 - 1 by norm_num, Nat.testBit_two_pow_sub_one]
  rw [h3, Bool.true_and, Bool.and_comm]

theorem nib1_eq (opcode : Nat) : nib1 opcode = opcode / 4096 % 16 := by
  have : (0xF000 : Nat) = 15 <<< 12 := by decide
  rw [nib1, this, and_mask_shift]
  norm_num

theorem nib2_eq (opcode : Nat) : nib2 opcode = opcode / 256 % 16 := by
  have : (0x0F00 : Nat) = 15 <<< 8 := by decide
  rw [nib2, this, and_mask_shift]
  norm_num

theorem nib3_eq (opcode : Nat) : nib3 opcode = opcode / 16 % 16 := by
  have : (0x00F0 : Nat) = 15 <<< 4 := by decide
  rw [nib3, this, and_mask_shift]
  norm_num

theorem nib4_eq (opcode : Nat) : nib4 opcode = opcode % 16 := by
  have h : (0x000F : Nat) = 2 ^ 4 - 1 := by decide
  rw [nib4, h, Nat.and_pow_two_sub_one_eq_mod]

/-- Digit extraction on a nibble-composed opcode. -/
theorem nib_decompose (a b c d : Nat) (ha : a < 16) (hb : b < 16) (hc : c < 16)
    (hd : d < 16) :
    nib1 (a * 4096 + b * 256 + c * 16 + d) = a ∧
    nib2 (a * 4096 + b * 256 + c * 16 + d) = b ∧
    nib3 (a * 4096 + b * 256 + c * 16 + d) = c ∧
    nib4 (a * 4096 + b * 256 + c * 16 + d) = d := by
  rw [nib1_eq, nib2_eq, nib3_eq, nib4_eq]
  refine ⟨?_, ?_, ?_, ?_⟩ <;> omega

/-- Big-endian byte concatenation as performed by `Memory::fetch_opcode`. -/
theorem byte_concat (a b : Nat) (hb : b < 256) : a <<< 8 ||| b = a * 256 + b := by
  apply Nat.eq_of_testBit_eq
  intro i
  rw [Nat.testBit_or, Nat.testBit_shiftLeft]
  rcases Nat.lt_or_ge i 8 with h | h
  · have hdec : (decide (i ≥ 8)) = false := by
      simp only [decide_eq_false_iff_not]
      omega
    have hmod : (a * 256 + b) % 2 ^ 8 = b := by
      rw [show (2 : Nat) ^ 8 = 256 by norm_num]
      omega
    have hlow : (a * 256 + b).testBit i = b.testBit i := by
      have hm := Nat.testBit_mod_two_pow (a * 256 + b) 8 i
      rw [hmod] at hm
      rw [hm]
      simp [h]
    rw [hdec, Bool.false_and, Bool.false_or, hlow]
  · have hdec : (decide (i ≥ 8)) = true := decide_eq_true h
    have hbf : b.testBit i = false := by
      apply Nat.testBit_lt_two_pow
      calc b < 256 := hb
        _ = 2 ^ 8 := by norm_num
        _ ≤ 2 ^ i := Nat.pow_le_pow_right (by norm_num) h
    have hhigh : (a * 256 + b).testBit i = a.testBit (i - 8) := by
      rw [Nat.testBit_to_div_mod, Nat.testBit_to_div_mod]
      have hpow : (2 : Nat) ^ i = 256 * 2 ^ (i - 8) := by
        rw [show (256 : Nat) = 2 ^ 8 by norm_num, ← pow_add]
        congr 1
        omega
      rw [hpow, ← Nat.div_div_eq_div_mul]
      have hq : (a * 256 + b) / 256 = a := by omega
      rw [hq]
    rw [hdec, Bool.true_and, hbf, Bool.or_false, hhigh]

/-! ### The key scan of Fx0A -/

theorem posAux_spec (keys : Nat → Bool) :
    ∀ fuel start : Nat,
      (∀ k, posAux keys start fuel = some k →
        keys k = true ∧ start ≤ k ∧ k < start + fuel ∧
        ∀ j, start ≤ j → j < k → keys j = false) ∧
      (posAux keys start fuel = none →
        ∀ j, start ≤ j → j < start + fuel → keys j = false) := by
  intro fuel
  induction fuel with
  | zero =>
    intro start
    constructor
    · intro k h
      simp [posAux] at h
    · intro _ j h1 h2
      omega
  | succ fuel ih =>
    intro start
    by_cases hk : keys start
    · constructor
      · intro k h
        simp [posAux, hk] at h
        subst h
        exact ⟨hk, Nat.le_refl _, by omega, fun j hj1 hj2 => by omega⟩
      · intro h
        simp [posAux, hk] at h
    · constructor
      · intro k h
        simp only [posAux, hk, if_false] at h
        obtain ⟨h1, h2, h3, h4⟩ := (ih (start + 1)).1 k h
        refine ⟨h1, by omega, by omega, ?_⟩
        intro j hj1 hj2
        rcases Nat.eq_or_lt_of_le hj1 with rfl | hlt
        · simpa using hk
        · exact h4 j (by omega) hj2
      · intro h j h1 h2
        simp only [posAux, hk, if_false] at h
        rcases Nat.eq_or_lt_of_le h1 with rfl | hlt
        · simpa using hk
        · exact (ih (start + 1)).2 h j (by omega) (by omega)

theorem position_some (keys : Nat → Bool) (k : Nat) (h : position keys = some k) :
    keys k = true ∧ k < 16 ∧ ∀ j, j < k → keys j = false := by
  obtain ⟨h1, _, h3, h4⟩ := (posAux_spec keys 16 0).1 k h
  exact ⟨h1, by omega, fun j hj => h4 j (Nat.zero_le _) hj⟩

theorem position_none (keys : Nat → Bool) (h : position keys = none) :
    ∀ j, j < 16 → keys j = false := by
  intro j hj
  exact (posAux_spec keys 16 0).2 h j (Nat.zero_le _) (by omega)

/-! ### Stack behaviour -/

theorem popAll_add (m n : Nat) (st : Stack) :
    popAll (m + n) st =
      match popAll m st with
      | .error e => .error e
      | .ok (vs, st1) =>
        match popAll n st1 with
        | .error e => .error e
        | .ok (ws, st2) => .ok (vs ++ ws, st2) := by
  induction m generalizing st with
  | zero =>
    rw [Nat.zero_add]
    simp only [popAll]
    cases popAll n st with
    | error e => rfl
    | ok q =>
      obtain ⟨ws, st2⟩ := q
      simp
  | succ m ih =>
    rw [show m + 1 + n = m + n + 1 by omega]
    simp only [popAll]
    cases st.pop with
    | error e => rfl
    | ok p =>
      obtain ⟨v, st1⟩ := p
      dsimp only
      rw [ih st1]
      cases popAll m st1 with
      | error e => rfl
      | ok q =>
        obtain ⟨vs, st2⟩ := q
        dsimp only
        cases popAll n st2 with
        | error e => rfl
        | ok r =>
          obtain ⟨ws, st3⟩ := r
          simp

/-- Pushing then popping is last-in-first-out, with the untouched lower
frames preserved. -/
theorem pushAll_popAll (addrs : List Nat) :
    ∀ st : Stack, st.sp + addrs.length ≤ 16 →
      ∃ st' : Stack,
        pushAll addrs st = .ok st' ∧
        st'.sp = st.sp + addrs.length ∧
        (∀ n, n < st.sp → st'.stack n = st.stack n) ∧
        popAll addrs.length st' = .ok (addrs.reverse, { st' with sp := st.sp }) := by
  induction addrs with
  | nil =>
    intro st _
    refine ⟨st, rfl, by simp, fun n _ => rfl, ?_⟩
    simp [popAll]
  | cons a rest ih =>
    intro st h
    have hlen : (a :: rest).length = rest.length + 1 := rfl
    have hsp : st.sp < 16 := by
      rw [hlen] at h
      omega
    have hpush : st.push a = .ok { stack := updateFn st.stack st.sp a, sp := st.sp + 1 } := by
      simp [Stack.push, hsp]
    obtain ⟨st', hser, hsp', hframe, hpop⟩ :=
      ih { stack := updateFn st.stack st.sp a, sp := st.sp + 1 }
        (by show st.sp + 1 + rest.length ≤ 16; rw [hlen] at h; omega)
    have hpa : pushAll (a :: rest) st = .ok st' := by
      show (a :: rest).foldlM (fun acc v => acc.push v) st = .ok st'
      rw [List.foldlM_cons]
      show st.push a >>= (fun b => rest.foldlM (fun acc v => acc.push v) b) = .ok st'
      rw [hpush]
      exact hser
    have hsp'' : st'.sp = st.sp + 1 + rest.length := hsp'
    refine ⟨st', hpa, by rw [hsp'', hlen]; omega, ?_, ?_⟩
    · intro n hn
      have hfr := hframe n (by show n < st.sp + 1; omega)
      rw [hfr]
      show updateFn st.stack st.sp a n = st.stack n
      rw [updateFn]
      simp [Nat.ne_of_lt hn]
    · have hpop' : popAll rest.length st' = .ok (rest.reverse, { st' with sp := st.sp + 1 }) :=
        hpop
      rw [hlen, popAll_add rest.length 1 st', hpop']
      have hval : st'.stack st.sp = a := by
        have h1 := hframe st.sp (by show st.sp < st.sp + 1; omega)
        rw [h1]
        show updateFn st.stack st.sp a st.sp = a
        rw [updateFn]
        simp
      simp [popAll, Stack.pop, hval, List.reverse_cons]

/-! ### Sprite compositing, characterized cell by cell -/

theorem xor_or_of_not_both {p A B : Bool} (h : ¬(A = true ∧ B = true)) :
    ((p.xor A).xor B) = p.xor (A || B) := by
  cases A <;> cases B <;> simp_all

theorem any_congr_on {l : List Nat} {f g : Nat → Bool} (h : ∀ a ∈ l, f a = g a) :
    l.any f = l.any g := by
  induction l with
  | nil => rfl
  | cons a t ih =>
    simp only [List.any_cons]
    rw [h a (by simp), ih (fun b hb => h b (by simp [hb]))]

theorem pixelStep_pixels (x sy byte : Nat) (acc : Screen × Bool) (col idx : Nat) :
    (pixelStep x sy byte acc col).1.pixels idx =
      ((acc.1.pixels idx).xor
        (colHitB x sy byte col && decide (idx = sy * 64 + (x + col)))) := by
  by_cases hor : 64 ≤ x + col ∨ 32 ≤ sy
  · have hc : colHitB x sy byte col = false := by
      unfold colHitB
      rcases hor with h | h
      · have hd : (decide (x + col < 64)) = false := decide_eq_false (Nat.not_lt.mpr h)
        rw [hd, Bool.false_and, Bool.false_and]
      · have hd : (decide (sy < 32)) = false := decide_eq_false (Nat.not_lt.mpr h)
        rw [hd, Bool.and_false, Bool.false_and]
    simp only [pixelStep]
    rw [if_pos hor, hc, Bool.false_and, Bool.xor_false]
  · have hor' := hor
    push_neg at hor'
    obtain ⟨hx, hy⟩ := hor'
    by_cases hbit : byte >>> (7 - col) &&& 0x1 = 1
    · have hc : colHitB x sy byte col = true := by
        unfold colHitB
        simp [hx, hy, hbit]
      simp only [pixelStep]
      rw [if_neg hor, if_pos hbit, hc, Bool.true_and]
      show updateFn acc.1.pixels (sy * 64 + (x + col)) (!acc.1.pixels (sy * 64 + (x + col))) idx
          = _
      unfold updateFn
      by_cases hidx : idx = sy * 64 + (x + col)
      · rw [if_pos hidx]
        have hd : (decide (idx = sy * 64 + (x + col))) = true := decide_eq_true hidx
        rw [hd, Bool.xor_true, hidx]
      · rw [if_neg hidx]
        have hd : (decide (idx = sy * 64 + (x + col))) = false := decide_eq_false hidx
        rw [hd, Bool.xor_false]
    · have hc : colHitB x sy byte col = false := by
        unfold colHitB
        have hd : (decide (byte >>> (7 - col) &&& 0x1 = 1)) = false := decide_eq_false hbit
        rw [hd, Bool.and_false]
      simp only [pixelStep]
      rw [if_neg hor, if_neg hbit, hc, Bool.false_and, Bool.xor_false]

theorem pixelStep_snd (x sy byte : Nat) (acc : Screen × Bool) (col : Nat) :
    (pixelStep x sy byte acc col).2 =
      (acc.2 || (colHitB x sy byte col && acc.1.pixels (sy * 64 + (x + col)))) := by
  by_cases hor : 64 ≤ x + col ∨ 32 ≤ sy
  · have hc : colHitB x sy byte col = false := by
      unfold colHitB
      rcases hor with h | h
      · have hd : (decide (x + col < 64)) = false := decide_eq_false (Nat.not_lt.mpr h)
        rw [hd, Bool.false_and, Bool.false_and]
      · have hd : (decide (sy < 32)) = false := decide_eq_false (Nat.not_lt.mpr h)
        rw [hd, Bool.and_false, Bool.false_and]
    simp only [pixelStep]
    rw [if_pos hor, hc, Bool.false_and, Bool.or_false]
  · have hor' := hor
    push_neg at hor'
    obtain ⟨hx, hy⟩ := hor'
    by_cases hbit : byte >>> (7 - col) &&& 0x1 = 1
    · have hc : colHitB x sy byte col = true := by
        unfold colHitB
        simp [hx, hy, hbit]
      simp only [pixelStep]
      rw [if_neg hor, if_pos hbit, hc, Bool.true_and]
    · have hc : colHitB x sy byte col = false := by
        unfold colHitB
        have hd : (decide (byte >>> (7 - col) &&& 0x1 = 1)) = false := decide_eq_false hbit
        rw [hd, Bool.and_false]
      simp only [pixelStep]
      rw [if_neg hor, if_neg hbit, hc, Bool.false_and, Bool.or_false]

theorem colHit_unique {x sy byte idx c1 c2 : Nat}
    (h1 : (colHitB x sy byte c1 && decide (idx = sy * 64 + (x + c1))) = true)
    (h2 : (colHitB x sy byte c2 && decide (idx = sy * 64 + (x + c2))) = true) :
    c1 = c2 := by
  simp only [colHitB, Bool.and_eq_true, decide_eq_true_eq] at h1 h2
  omega

theorem foldl_pixelStep_pixels (x sy byte idx : Nat) :
    ∀ cols : List Nat, cols.Nodup → ∀ acc : Screen × Bool,
      (cols.foldl (pixelStep x sy byte) acc).1.pixels idx =
        ((acc.1.pixels idx).xor
          (cols.any fun col => colHitB x sy byte col && decide (idx = sy * 64 + (x + col)))) := by
  intro cols
  induction cols with
  | nil =>
    intro _ acc
    simp
  | cons c cs ih =>
    intro hnd acc
    obtain ⟨hnotin, hnd'⟩ := List.nodup_cons.mp hnd
    rw [List.foldl_cons, ih hnd', pixelStep_pixels, List.any_cons]
    apply xor_or_of_not_both
    rintro ⟨ha, hb⟩
    rw [List.any_eq_true] at hb
    obtain ⟨c', hc', hcc⟩ := hb
    exact hnotin ((colHit_unique ha hcc) ▸ hc')

theorem foldl_pixelStep_snd (x sy byte : Nat) :
    ∀ cols : List Nat, cols.Nodup → ∀ acc : Screen × Bool,
      (cols.foldl (pixelStep x sy byte) acc).2 =
        (acc.2 || cols.any fun col => colHitB x sy byte col && acc.1.pixels (sy * 64 + (x + col))) := by
  intro cols
  induction cols with
  | nil =>
    intro _ acc
    simp
  | cons c cs ih =>
    intro hnd acc
    obtain ⟨hnotin, hnd'⟩ := List.nodup_cons.mp hnd
    rw [List.foldl_cons, ih hnd', pixelStep_snd, List.any_cons]
    have hagree : ∀ c' ∈ cs,
        (colHitB x sy byte c' &&
          (pixelStep x sy byte acc c).1.pixels (sy * 64 + (x + c'))) =
        (colHitB x sy byte c' && acc.1.pixels (sy * 64 + (x + c'))) := by
      intro c' hc'
      have hne : sy * 64 + (x + c') ≠ sy * 64 + (x + c) := by
        intro he
        have hcc : c' = c := by omega
        rw [hcc] at hc'
        exact hnotin hc'
      rw [pixelStep_pixels]
      have hd : (decide ((sy * 64 + (x + c')) = sy * 64 + (x + c))) = false :=
        decide_eq_false hne
      rw [hd, Bool.and_false, Bool.xor_false]
    rw [any_congr_on hagree, Bool.or_assoc]

theorem rowStep_pixels (x y : Nat) (sprite : List Nat) (acc : Screen × Bool) (row idx : Nat) :
    (rowStep x y sprite acc row).1.pixels idx =
      ((acc.1.pixels idx).xor (rowPixB x y sprite idx row)) := by
  unfold rowStep rowPixB
  cases sprite[row]? with
  | none => simp
  | some byte =>
    exact foldl_pixelStep_pixels x (y + row) byte idx (List.range 8) (List.nodup_range 8) acc

theorem rowStep_snd (x y : Nat) (sprite : List Nat) (acc : Screen × Bool) (row : Nat) :
    (rowStep x y sprite acc row).2 = (acc.2 || rowCollB x y sprite acc.1 row) := by
  unfold rowStep rowCollB
  cases sprite[row]? with
  | none => simp
  | some byte =>
    exact foldl_pixelStep_snd x (y + row) byte (List.range 8) (List.nodup_range 8) acc

theorem rowPix_unique {x y : Nat} {sprite : List Nat} {idx r1 r2 : Nat}
    (h1 : rowPixB x y sprite idx r1 = true) (h2 : rowPixB x y sprite idx r2 = true) :
    r1 = r2 := by
  unfold rowPixB at h1 h2
  cases e1 : sprite[r1]? with
  | none =>
    rw [e1] at h1
    exact absurd h1 (by simp)
  | some b1 =>
    rw [e1] at h1
    cases e2 : sprite[r2]? with
    | none =>
      rw [e2] at h2
      exact absurd h2 (by simp)
    | some b2 =>
      rw [e2] at h2
      rw [List.any_eq_true] at h1 h2
      obtain ⟨c1, _, hc1⟩ := h1
      obtain ⟨c2, _, hc2⟩ := h2
      simp only [colHitB, Bool.and_eq_true, decide_eq_true_eq] at hc1 hc2
      omega

theorem foldl_rowStep_pixels (x y : Nat) (sprite : List Nat) (idx : Nat) :
    ∀ rows : List Nat, rows.Nodup → ∀ acc : Screen × Bool,
      ((rows.foldl (rowStep x y sprite) acc).1.pixels idx) =
        ((acc.1.pixels idx).xor (rows.any (rowPixB x y sprite idx))) := by
  intro rows
  induction rows with
  | nil =>
    intro _ acc
    simp
  | cons r rs ih =>
    intro hnd acc
    obtain ⟨hnotin, hnd'⟩ := List.nodup_cons.mp hnd
    rw [List.foldl_cons, ih hnd', rowStep_pixels, List.any_cons]
    apply xor_or_of_not_both
    rintro ⟨ha, hb⟩
    rw [List.any_eq_true] at hb
    obtain ⟨r', hr', hrr⟩ := hb
    exact hnotin ((rowPix_unique ha hrr) ▸ hr')

theorem foldl_rowStep_snd (x y : Nat) (sprite : List Nat) :
    ∀ rows : List Nat, rows.Nodup → ∀ acc : Screen × Bool,
      (rows.foldl (rowStep x y sprite) acc).2 =
        (acc.2 || rows.any (rowCollB x y sprite acc.1)) := by
  intro rows
  induction rows with
  | nil =>
    intro _ acc
    simp
  | cons r rs ih =>
    intro hnd acc
    obtain ⟨hnotin, hnd'⟩ := List.nodup_cons.mp hnd
    rw [List.foldl_cons, ih hnd', rowStep_snd, List.any_cons]
    have hagree : ∀ r' ∈ rs,
        rowCollB x y sprite (rowStep x y sprite acc r).1 r' =
        rowCollB x y sprite acc.1 r' := by
      intro r' hr'
      unfold rowCollB
      cases e : sprite[r']? with
      | none => rfl
      | some b' =>
        apply any_congr_on
        intro col hcol
        by_cases hh : colHitB x (y + r') b' col = true
        · have hr'true : rowPixB x y sprite ((y + r') * 64 + (x + col)) r' = true := by
            unfold rowPixB
            rw [e, List.any_eq_true]
            refine ⟨col, hcol, ?_⟩
            rw [hh, Bool.true_and]
            simp
          have hfalse : rowPixB x y sprite ((y + r') * 64 + (x + col)) r = false := by
            cases hf : rowPixB x y sprite ((y + r') * 64 + (x + col)) r
            · rfl
            · have hrr : r = r' := rowPix_unique hf hr'true
              rw [hrr] at hnotin
              exact absurd hr' hnotin
          have hpix : (rowStep x y sprite acc r).1.pixels ((y + r') * 64 + (x + col)) =
              acc.1.pixels ((y + r') * 64 + (x + col)) := by
            rw [rowStep_pixels, hfalse, Bool.xor_false]
          rw [hpix]
        · have hhf : colHitB x (y + r') b' col = false := by
            cases hcf : colHitB x (y + r') b' col
            · rfl
            · exact absurd hcf hh
          rw [hhf, Bool.false_and, Bool.false_and]
    rw [any_congr_on hagree, Bool.or_assoc]

/-- Cell-level characterization of `Screen::draw_sprite`: each cell ends up
as its old value XOR whether some non-clipped set sprite bit maps to it. -/
theorem draw_sprite_pixels (scr : Screen) (x y height : Nat) (sprite : List Nat)
    (idx : Nat) :
    (scr.draw_sprite x y height sprite).1.pixels idx =
      ((scr.pixels idx).xor (coversB x y height sprite idx)) := by
  unfold Screen.draw_sprite coversB
  exact foldl_rowStep_pixels x y sprite idx (List.range height) (List.nodup_range height)
    (scr, false)

/-- Collision characterization of `Screen::draw_sprite`: a collision is
reported exactly when some drawn pixel lands on an already-set cell.  (Each
visited cell is visited at most once, because distinct sprite bits map to
distinct cells.) -/
theorem draw_sprite_collision (scr : Screen) (x y height : Nat) (sprite : List Nat) :
    (scr.draw_sprite x y height sprite).2 = spriteCollidesB x y height sprite scr := by
  unfold Screen.draw_sprite spriteCollidesB
  rw [foldl_rowStep_snd x y sprite (List.range height) (List.nodup_range height) (scr, false)]
  rw [Bool.false_or]

/-- Unfolding of the cover predicate into explicit row/column witnesses. -/
theorem coversB_iff (x y height : Nat) (sprite : List Nat) (idx : Nat) :
    coversB x y height sprite idx = true ↔
      ∃ row, row < height ∧ ∃ byte, sprite[row]? = some byte ∧ ∃ col, col < 8 ∧
        x + col < 64 ∧ y + row < 32 ∧ byte >>> (7 - col) &&& 0x1 = 1 ∧
        idx = (y + row) * 64 + (x + col) := by
  unfold coversB
  rw [List.any_eq_true]
  constructor
  · rintro ⟨row, hrow, hpix⟩
    rw [List.mem_range] at hrow
    unfold rowPixB at hpix
    cases e : sprite[row]? with
    | none =>
      rw [e] at hpix
      exact absurd hpix (by simp)
    | some byte =>
      rw [e] at hpix
      rw [List.any_eq_true] at hpix
      obtain ⟨col, hcol, hc⟩ := hpix
      rw [List.mem_range] at hcol
      simp only [colHitB, Bool.and_eq_true, decide_eq_true_eq] at hc
      exact ⟨row, hrow, byte, e, col, hcol, hc.1.1.1, hc.1.1.2, hc.1.2, hc.2⟩
  · rintro ⟨row, hrow, byte, he, col, hcol, h1, h2, h3, h4⟩
    refine ⟨row, List.mem_range.mpr hrow, ?_⟩
    unfold rowPixB
    rw [he, List.any_eq_true]
    refine ⟨col, List.mem_range.mpr hcol, ?_⟩
    simp [colHitB, h1, h2, h3, h4]

/-- Unfolding of the collision predicate into explicit witnesses. -/
theorem spriteCollidesB_iff (x y height : Nat) (sprite : List Nat) (scr : Screen) :
    spriteCollidesB x y height sprite scr = true ↔
      ∃ row, row < height ∧ ∃ byte, sprite[row]? = some byte ∧ ∃ col, col < 8 ∧
        x + col < 64 ∧ y + row < 32 ∧ byte >>> (7 - col) &&& 0x1 = 1 ∧
        scr.pixels ((y + row) * 64 + (x + col)) = true := by
  unfold spriteCollidesB
  rw [List.any_eq_true]
  constructor
  · rintro ⟨row, hrow, hpix⟩
    rw [List.mem_range] at hrow
    unfold rowCollB at hpix
    cases e : sprite[row]? with
    | none =>
      rw [e] at hpix
      exact absurd hpix (by simp)
    | some byte =>
      rw [e] at hpix
      rw [List.any_eq_true] at hpix
      obtain ⟨col, hcol, hc⟩ := hpix
      rw [List.mem_range] at hcol
      simp only [colHitB, Bool.and_eq_true, decide_eq_true_eq] at hc
      exact ⟨row, hrow, byte, e, col, hcol, hc.1.1.1, hc.1.1.2, hc.1.2, hc.2⟩
  · rintro ⟨row, hrow, byte, he, col, hcol, h1, h2, h3, h4⟩
    refine ⟨row, List.mem_range.mpr hrow, ?_⟩
    unfold rowCollB
    rw [he, List.any_eq_true]
    refine ⟨col, List.mem_range.mpr hcol, ?_⟩
    simp [colHitB, h1, h2, h3, h4]

/-! ### The claims -/

/-- Claim C1: the spec mandates that every out-of-range memory access — the
opcode fetch with pc + 1 > 4095, the Dxyn sprite fetch, the Fx33 BCD store
and the Fx55/Fx65 block register store/load — fail with an explicit
AddressOutOfRange error.  The code instead performs unchecked indexing: at
each of the claim's boundary inputs the run aborts with the untyped Rust
index-out-of-bounds trap, and no AddressOutOfRange value exists anywhere in
the code.  This theorem evaluates the model at one failing input of each of
the four access kinds. -/
theorem c1_oob_accesses_trap :
    Chip8.cycle 0 sFetchEdge = Except.error RtError.indexOutOfBounds ∧
    Chip8.execute 0 0xF033 sBcdEdge = Except.error RtError.indexOutOfBounds ∧
    Chip8.execute 0 0xF155 sRegsEdge = Except.error RtError.indexOutOfBounds ∧
    Chip8.execute 0 0xF165 sRegsEdge = Except.error RtError.indexOutOfBounds ∧
    Chip8.execute 0 0xD007 sDrawEdge = Except.error RtError.indexOutOfBounds :=
  ⟨rfl, rfl, rfl, rfl, rfl⟩

/-- Claim C2 counterexample: the 17th push does not fail with a typed
StackOverflow and an empty pop does not fail with a typed StackUnderflow —
no such error values exist in the code.  The push traps with a Rust
index-out-of-bounds abort and the pop traps with an integer underflow. -/
theorem c2_counterexample :
    (pushAll (List.range 16) Stack.init >>= fun st => st.push 999) =
      Except.error RtError.indexOutOfBounds ∧
    Stack.pop Stack.init = Except.error RtError.subOverflow :=
  ⟨rfl, rfl⟩

/-- Claim C2 (amended): pushing N ≤ 16 addresses and then popping N times
yields them in exact reverse (LIFO) order; the 17th push without an
intervening pop fails — by the index-out-of-bounds trap, since the code has
no StackOverflow value — and a pop on the empty stack fails — by the
integer-underflow trap, since the code has no StackUnderflow value. -/
theorem c2_lifo (addrs : List Nat) (h : addrs.length ≤ 16) :
    ∃ st : Stack,
      pushAll addrs Stack.init = .ok st ∧
      popAll addrs.length st = .ok (addrs.reverse, { st with sp := 0 }) ∧
      (addrs.length = 16 → ∀ v, st.push v = .error .indexOutOfBounds) ∧
      Stack.pop Stack.init = .error .subOverflow := by
  obtain ⟨st, hpush, hsp, _, hpop⟩ :=
    pushAll_popAll addrs Stack.init (by show 0 + addrs.length ≤ 16; omega)
  have hinit : Stack.init.sp = 0 := rfl
  rw [hinit] at hpop hsp
  refine ⟨st, hpush, hpop, ?_, rfl⟩
  intro hlen v
  have h16 : st.sp = 16 := by rw [hsp, hlen]
  simp [Stack.push, h16]

/-- Claim C2 witness: sixteen concrete pushes pop back in reverse, and the
17th push fails. -/
theorem c2_lifo_witness :
    ∃ st : Stack,
      pushAll (List.range 16) Stack.init = .ok st ∧
      popAll (List.range 16).length st = .ok ((List.range 16).reverse, { st with sp := 0 }) ∧
      ((List.range 16).length = 16 → ∀ v, st.push v = .error .indexOutOfBounds) ∧
      Stack.pop Stack.init = .error .subOverflow :=
  c2_lifo (List.range 16) (by simp)

set_option maxRecDepth 10000 in
/-- Claim C3: `load_rom` copies its input into memory starting at address
512; it succeeds exactly for inputs of at most 3584 bytes (3584 bytes fill
memory through address 4095), leaving the program counter and all other
memory untouched, and any longer input fails with the code's explicit
capacity failure (the "ROM too large to fit in memory" abort — the
CapacityError of the spec). -/
theorem c3_load_rom (m : Memory) (rom : List Nat) :
    ((∃ m', Memory.load_rom m rom = .ok m') ↔ rom.length ≤ 3584) ∧
    (∀ m', Memory.load_rom m rom = .ok m' →
      (∀ i, i < rom.length → m'.data (512 + i) = rom.getD i 0) ∧
      (∀ a, a < 512 ∨ 512 + rom.length ≤ a → m'.data a = m.data a) ∧
      m'.pc = m.pc) ∧
    (3584 < rom.length → Memory.load_rom m rom = .error .romTooLarge) := by
  unfold Memory.load_rom
  by_cases hlen : 512 + rom.length > 4096
  · rw [if_pos hlen]
    refine ⟨⟨fun h => absurd h ?_, fun h => absurd h (by omega)⟩,
      fun m' h => absurd h (by simp), fun _ => rfl⟩
    rintro ⟨m', hm'⟩
    exact absurd hm' (by simp)
  · rw [if_neg hlen]
    refine ⟨⟨fun _ => by omega, fun _ => ⟨_, rfl⟩⟩, ?_, fun h => absurd h (by omega)⟩
    intro m' h
    injection h with h
    subst h
    refine ⟨?_, ?_, rfl⟩
    · intro i hi
      show (if 512 ≤ 512 + i ∧ 512 + i < 512 + rom.length then rom.getD (512 + i - 512) 0
            else m.data (512 + i)) = rom.getD i 0
      rw [if_pos (by omega)]
      congr 1
      omega
    · intro a ha
      show (if 512 ≤ a ∧ a < 512 + rom.length then rom.getD (a - 512) 0 else m.data a) =
        m.data a
      rw [if_neg (by omega)]

/-- Claim C3 witness: exactly 3584 bytes load, 3585 bytes fail. -/
theorem c3_load_rom_witness :
    (∃ m', Memory.load_rom Memory.init (List.replicate 3584 7) = .ok m') ∧
    Memory.load_rom Memory.init (List.replicate 3585 7) = Except.error RtError.romTooLarge :=
  ⟨(c3_load_rom Memory.init (List.replicate 3584 7)).1.mpr
     (by rw [List.length_replicate]),
   (c3_load_rom Memory.init (List.replicate 3585 7)).2.2
     (by rw [List.length_replicate]; omega)⟩

/-- Claim C7 counterexample: for opcode 8F14 (destination register x = F)
with VF = 5 and V1 = 6, the final Vx (= VF) is 0, the carry bit — not
(5 + 6) mod 256 = 11: the flag write overwrites the sum. -/
theorem c7_counterexample :
    Except.map (fun t => t.v_registers 15) (Chip8.execute 0 0x8F14 sAddVF) =
      Except.ok 0 ∧ (0 : Nat) ≠ (5 + 6) % 256 :=
  ⟨rfl, by decide⟩

/-- Claim C7 (amended): for all 8-bit a, b and register indices x ≠ 0xF,
after 8xy4 with Vx = a and Vy = b the destination holds (a + b) mod 256, VF
holds 1 exactly when a + b > 255, and all other registers are unchanged.
(For x = 0xF the carry write overwrites the sum, see the counterexample.) -/
theorem c7_add_carry (randByte : Nat) (s : Chip8) (x y a b : Nat)
    (hx : x < 16) (hy : y < 16) (hxF : x ≠ 15)
    (ha : s.v_registers x = a) (hb : s.v_registers y = b)
    (ha8 : a < 256) (hb8 : b < 256) :
    ∃ t, Chip8.execute randByte (8 * 4096 + x * 256 + y * 16 + 4) s = Except.ok t ∧
      t.v_registers x = (a + b) % 256 ∧
      (t.v_registers 15 = if 255 < a + b then 1 else 0) ∧
      ∀ i, i ≠ x → i ≠ 15 → t.v_registers i = s.v_registers i := by
  obtain ⟨h1, h2, h3, h4⟩ := nib_decompose 8 x y 4 (by norm_num) hx hy (by norm_num)
  have hexec : Chip8.execute randByte (8 * 4096 + x * 256 + y * 16 + 4) s =
      Except.ok { s with v_registers :=
        (updateFn (updateFn s.v_registers x ((a + b) % 256)) 15
          (if 255 < a + b then 1 else 0)) } := by
    simp [Chip8.execute, h1, h2, h3, h4, ha, hb]
  refine ⟨_, hexec, ?_, ?_, ?_⟩
  · show updateFn (updateFn s.v_registers x ((a + b) % 256)) 15
        (if 255 < a + b then 1 else 0) x = (a + b) % 256
    unfold updateFn
    rw [if_neg hxF, if_pos rfl]
  · show updateFn (updateFn s.v_registers x ((a + b) % 256)) 15
        (if 255 < a + b then 1 else 0) 15 = _
    unfold updateFn
    rw [if_pos rfl]
  · intro i hix hi15
    show updateFn (updateFn s.v_registers x ((a + b) % 256)) 15
        (if 255 < a + b then 1 else 0) i = s.v_registers i
    unfold updateFn
    rw [if_neg hi15, if_neg hix]

/-- Claim C7 witness: 8124 with V1 = 200, V2 = 100 yields V1 = 44, VF = 1. -/
theorem c7_add_carry_witness :
    ∃ t, Chip8.execute 0 (8 * 4096 + 1 * 256 + 2 * 16 + 4) sAddWit = Except.ok t ∧
      t.v_registers 1 = (200 + 100) % 256 ∧
      (t.v_registers 15 = if 255 < 200 + 100 then 1 else 0) ∧
      ∀ i, i ≠ 1 → i ≠ 15 → t.v_registers i = sAddWit.v_registers i :=
  c7_add_carry 0 sAddWit 1 2 200 100 (by norm_num) (by norm_num) (by norm_num)
    rfl rfl (by norm_num) (by norm_num)

/-- Claim C9: the Cxkk random byte is not an injected dependency — the code
draws it from the hidden ambient thread-local generator
`rand::random::<u8>()` (threaded through the embedding as the explicit
oracle argument `randByte`, because a pure model has no ambient state).
A step is therefore not determined by the machine state and key snapshot
alone: the same machine, stepped on the same opcode under two different
ambient draws, ends in different states. -/
theorem c9_ambient_randomness :
    Chip8.execute 0 0xC0FF Chip8.init ≠ Chip8.execute 255 0xC0FF Chip8.init := by
  intro h
  have h0 : Except.map (fun t => t.v_registers 0) (Chip8.execute 0 0xC0FF Chip8.init) =
      Except.ok 0 := rfl
  have h255 : Except.map (fun t => t.v_registers 0) (Chip8.execute 255 0xC0FF Chip8.init) =
      Except.ok 255 := rfl
  rw [h, h255] at h0
  exact absurd (Except.ok.inj h0) (by norm_num)

/-- Claim C10 counterexample: executing 8F0E (SHL with destination VF) from
VF = 128 leaves VF = 2, which is neither 0 nor 1: the code writes
VF = Vx >> 7 = 1 first, and the subsequent shift doubles the flag it just
wrote. -/
theorem c10_counterexample :
    Except.map (fun t => t.v_registers 15) (Chip8.execute 0 0x8F0E sShlVF) =
      Except.ok 2 ∧ ¬((2 : Nat) = 0 ∨ (2 : Nat) = 1) :=
  ⟨rfl, by decide⟩

/-- Claim C10 (amended): for byte-valued register files, after 8xy4, 8xy5,
8xy6, 8xy7 or Dxyn — and after 8xyE provided x ≠ 0xF — register VF holds 0
or 1.  The excluded case 8FyE can leave VF = 2 (see the counterexample). -/
theorem c10_flag_invariant (randByte opcode : Nat) (s t : Chip8)
    (hregs : ∀ i, i < 16 → s.v_registers i < 256)
    (hop : (nib1 opcode = 8 ∧
             (nib4 opcode = 4 ∨ nib4 opcode = 5 ∨ nib4 opcode = 6 ∨ nib4 opcode = 7)) ∨
           (nib1 opcode = 8 ∧ nib4 opcode = 0xE ∧ nib2 opcode ≠ 0xF) ∨
           nib1 opcode = 0xD)
    (hexec : Chip8.execute randByte opcode s = .ok t) :
    t.v_registers 15 = 0 ∨ t.v_registers 15 = 1 := by
  have hx16 : nib2 opcode < 16 := by
    rw [nib2_eq]
    omega
  rcases hop with ⟨h1, h4 | h4 | h4 | h4⟩ | ⟨h1, h4, hxF⟩ | h1
  · -- 8xy4: VF = carry
    simp [Chip8.execute, h1, h4] at hexec
    rw [← hexec]
    by_cases hc : 255 < s.v_registers (nib2 opcode) + s.v_registers (nib3 opcode) <;>
      simp [updateFn, hc]
  · -- 8xy5: VF = not borrow
    simp [Chip8.execute, h1, h4] at hexec
    rw [← hexec]
    by_cases hc : s.v_registers (nib2 opcode) < s.v_registers (nib3 opcode) <;>
      simp [updateFn, hc]
  · -- 8xy6: VF = Vx & 1, then Vx (possibly VF) is shifted right
    simp [Chip8.execute, h1, h4] at hexec
    rw [← hexec]
    by_cases hxf : nib2 opcode = 15
    · simp [updateFn, hxf]
      have : s.v_registers 15 &&& 0x1 ≤ 1 := by
        rw [Nat.and_one_is_mod]
        omega
      omega
    · have hne : (15 : Nat) ≠ nib2 opcode := fun hh => hxf hh.symm
      simp [updateFn, if_neg hne]
      have : s.v_registers (nib2 opcode) &&& 0x1 ≤ 1 := by
        rw [Nat.and_one_is_mod]
        omega
      omega
  · -- 8xy7: VF = not borrow
    simp [Chip8.execute, h1, h4] at hexec
    rw [← hexec]
    by_cases hc : s.v_registers (nib3 opcode) < s.v_registers (nib2 opcode) <;>
      simp [updateFn, hc]
  · -- 8xyE with x ≠ F: VF = Vx >> 7 ∈ {0, 1}
    simp [Chip8.execute, h1, h4] at hexec
    rw [← hexec]
    have hne : (15 : Nat) ≠ nib2 opcode := fun hh => hxF hh.symm
    simp [updateFn, if_neg hne]
    have hv := hregs (nib2 opcode) hx16
    have : s.v_registers (nib2 opcode) >>> 7 ≤ 1 := by
      rw [Nat.shiftRight_eq_div_pow]
      omega
    omega
  · -- Dxyn: VF = collision flag
    simp only [Chip8.execute, h1] at hexec
    norm_num at hexec
    cases hgb : s.memory.get_bytes s.i_register (nib4 opcode) with
    | error e =>
      rw [hgb] at hexec
      simp at hexec
    | ok sprite =>
      rw [hgb] at hexec
      simp at hexec
      rw [← hexec]
      by_cases hcoll : (Screen.draw_sprite s.screen (s.v_registers (nib2 opcode) % 64)
          (s.v_registers (nib3 opcode) % 32) (nib4 opcode) sprite).2 = true <;>
        simp [updateFn, hcoll]

/-- Claim C10 witness: a concrete carrying add leaves VF ∈ {0, 1}. -/
theorem c10_flag_invariant_witness :
    ∃ t, Chip8.execute 0 0x8124 Chip8.init = Except.ok t ∧
      (t.v_registers 15 = 0 ∨ t.v_registers 15 = 1) := by
  obtain ⟨t, ht⟩ : ∃ t, Chip8.execute 0 0x8124 Chip8.init = Except.ok t := ⟨_, rfl⟩
  refine ⟨t, ht, c10_flag_invariant 0 0x8124 Chip8.init t ?_ ?_ ht⟩
  · intro i _
    show (0 : Nat) < 256
    norm_num
  · left
    refine ⟨by decide, Or.inl (by decide)⟩

/-- Claim C4 counterexample: a step on the unknown opcode 0x0001 returns the
same plain success value as any ordinary instruction — the machine with only
the fetch's pc advance and nothing else.  The step's entire observable
outcome is this return value, which carries no UnknownOpcode report: the
event is silently dropped (the catch-all arm of `execute` does nothing). -/
theorem c4_counterexample :
    Chip8.cycle 0 sUnknown =
      Except.ok { sUnknown with memory := { sUnknown.memory with pc := 514 } } := rfl

/-- Claim C4 (amended): an opcode matching no dispatch pattern is non-fatal
and leaves every machine component unchanged except the fetch's program
counter advance, but no UnknownOpcode event is reported: the catch-all arm
does nothing and the step returns plain success, indistinguishable from any
other instruction's return. -/
theorem c4_unknown_silent (randByte : Nat) (s : Chip8)
    (hpc : s.memory.pc + 1 ≤ 4095)
    (hunk : ¬ knownOpcode
      (s.memory.data s.memory.pc <<< 8 ||| s.memory.data (s.memory.pc + 1))) :
    Chip8.cycle randByte s =
      Except.ok { s with memory := { s.memory with pc := s.memory.pc + 2 } } := by
  unfold knownOpcode at hunk
  simp only [not_or] at hunk
  obtain ⟨h1, h2, h3, h4, h5, h6, h7, h8, h9, h10, h11, h12, h13, h14, h15, h16, h17,
    h18, h19, h20, h21, h22, h23, h24, h25, h26, h27, h28, h29, h30, h31, h32, h33,
    h34⟩ := hunk
  unfold Chip8.cycle Memory.fetch_opcode
  rw [if_pos hpc]
  show Chip8.execute randByte
      (s.memory.data s.memory.pc <<< 8 ||| s.memory.data (s.memory.pc + 1))
      { s with memory := s.memory.next } = _
  unfold Chip8.execute
  rw [if_neg h1, if_neg h2, if_neg h3, if_neg h4, if_neg h5, if_neg h6, if_neg h7,
    if_neg h8, if_neg h9, if_neg h10, if_neg h11, if_neg h12, if_neg h13, if_neg h14,
    if_neg h15, if_neg h16, if_neg h17, if_neg h18, if_neg h19, if_neg h20, if_neg h21,
    if_neg h22, if_neg h23, if_neg h24, if_neg h25, if_neg h26, if_neg h27, if_neg h28,
    if_neg h29, if_neg h30, if_neg h31, if_neg h32, if_neg h33, if_neg h34]
  rfl

/-- Claim C4 witness: the amended statement at the concrete unknown opcode
0x0001. -/
theorem c4_unknown_silent_witness :
    Chip8.cycle 7 sUnknown =
      Except.ok { sUnknown with
        memory := { sUnknown.memory with pc := sUnknown.memory.pc + 2 } } := by
  apply c4_unknown_silent
  · show (512 : Nat) + 1 ≤ 4095
    norm_num
  · show ¬ knownOpcode 1
    unfold knownOpcode
    have e1 : nib1 1 = 0 := rfl
    have e2 : nib2 1 = 0 := rfl
    have e3 : nib3 1 = 0 := rfl
    have e4 : nib4 1 = 1 := rfl
    rw [e1, e2, e3, e4]
    simp

/-- Claim C6: executing Fx0A via a full fetch-execute step: if some key is
pressed in the current snapshot, Vx receives the lowest-index pressed key
and the program counter ends two past its pre-fetch value; if no key is
pressed, the machine ends exactly in its pre-step state (the rewind cancels
the fetch's advance, so the same instruction is fetched again next step),
and no register changes. -/
theorem c6_keywait (randByte : Nat) (s : Chip8) (x : Nat) (hx : x < 16)
    (hpc : s.memory.pc + 1 ≤ 4095)
    (hb1 : s.memory.data s.memory.pc = 240 + x)
    (hb2 : s.memory.data (s.memory.pc + 1) = 10) :
    (position s.pressed_keys = none →
      ((∀ j, j < 16 → s.pressed_keys j = false) ∧
        Chip8.cycle randByte s = Except.ok s)) ∧
    (∀ k, position s.pressed_keys = some k →
      (s.pressed_keys k = true ∧ (∀ j, j < k → s.pressed_keys j = false) ∧
        Chip8.cycle randByte s =
          Except.ok { s with
            memory := { s.memory with pc := s.memory.pc + 2 },
            v_registers := (updateFn s.v_registers x k) })) := by
  have hop : s.memory.data s.memory.pc <<< 8 ||| s.memory.data (s.memory.pc + 1) =
      15 * 4096 + x * 256 + 0 * 16 + 10 := by
    rw [hb1, hb2, byte_concat (240 + x) 10 (by norm_num)]
    omega
  obtain ⟨h1, h2, h3, h4⟩ :=
    nib_decompose 15 x 0 10 (by norm_num) hx (by norm_num) (by norm_num)
  constructor
  · intro hnone
    refine ⟨position_none s.pressed_keys hnone, ?_⟩
    unfold Chip8.cycle Memory.fetch_opcode
    rw [if_pos hpc]
    show Chip8.execute randByte
        (s.memory.data s.memory.pc <<< 8 ||| s.memory.data (s.memory.pc + 1))
        { s with memory := s.memory.next } = _
    rw [hop]
    simp only [Chip8.execute, h1, h2, h3, h4]
    norm_num
    rw [hnone]
    show Except.ok { s with memory :=
      { s.memory with pc := s.memory.pc + 2 - 2 } } = Except.ok s
    rw [Nat.add_sub_cancel]
  · intro k hk
    obtain ⟨hkey, hk16, hlow⟩ := position_some s.pressed_keys k hk
    refine ⟨hkey, hlow, ?_⟩
    unfold Chip8.cycle Memory.fetch_opcode
    rw [if_pos hpc]
    show Chip8.execute randByte
        (s.memory.data s.memory.pc <<< 8 ||| s.memory.data (s.memory.pc + 1))
        { s with memory := s.memory.next } = _
    rw [hop]
    simp only [Chip8.execute, h1, h2, h3, h4]
    norm_num
    rw [hk]
    rfl

/-- Claim C6 witness: the key-wait step at a concrete machine with keys 3
and 9 pressed (and the same conclusion for its keyless branch). -/
theorem c6_keywait_witness :
    (position sKeyWait.pressed_keys = none →
      ((∀ j, j < 16 → sKeyWait.pressed_keys j = false) ∧
        Chip8.cycle 0 sKeyWait = Except.ok sKeyWait)) ∧
    (∀ k, position sKeyWait.pressed_keys = some k →
      (sKeyWait.pressed_keys k = true ∧ (∀ j, j < k → sKeyWait.pressed_keys j = false) ∧
        Chip8.cycle 0 sKeyWait =
          Except.ok { sKeyWait with
            memory := { sKeyWait.memory with pc := sKeyWait.memory.pc + 2 },
            v_registers := (updateFn sKeyWait.v_registers 5 k) })) :=
  c6_keywait 0 sKeyWait 5 (by norm_num)
    (by show (512 : Nat) + 1 ≤ 4095; norm_num) rfl rfl

/-- Claim C5: for every Dxyn draw whose sprite fetch is in range, the origin
is wrapped once — Vx mod 64 horizontally, Vy mod 32 vertically — and every
individual sprite pixel lands only at the unwrapped cell
((Vx mod 64) + c, (Vy mod 32) + r): an on-screen cell (cx, cy) toggles
exactly when some set sprite bit maps to it that way, so pixels whose
coordinates would leave the 64 × 32 grid are dropped, never wrapped. -/
theorem c5_draw_wrap_clip (randByte : Nat) (s : Chip8) (x y n : Nat)
    (hx : x < 16) (hy : y < 16) (hn : n < 16)
    (hI : s.i_register + n ≤ 4096) :
    ∃ t, Chip8.execute randByte (13 * 4096 + x * 256 + y * 16 + n) s = Except.ok t ∧
      ∀ cx cy : Nat, cx < 64 → cy < 32 →
        ((∃ r, r < n ∧ ∃ c, c < 8 ∧
            s.memory.data (s.i_register + r) >>> (7 - c) &&& 0x1 = 1 ∧
            cx = s.v_registers x % 64 + c ∧ cy = s.v_registers y % 32 + r) →
          t.screen.pixels (cy * 64 + cx) = !(s.screen.pixels (cy * 64 + cx))) ∧
        (¬(∃ r, r < n ∧ ∃ c, c < 8 ∧
            s.memory.data (s.i_register + r) >>> (7 - c) &&& 0x1 = 1 ∧
            cx = s.v_registers x % 64 + c ∧ cy = s.v_registers y % 32 + r) →
          t.screen.pixels (cy * 64 + cx) = s.screen.pixels (cy * 64 + cx)) := by
  obtain ⟨h1, h2, h3, h4⟩ := nib_decompose 13 x y n (by norm_num) hx hy hn
  have hgb : s.memory.get_bytes s.i_register n =
      .ok ((List.range n).map fun k => s.memory.data (s.i_register + k)) := by
    unfold Memory.get_bytes
    rw [if_pos hI]
  have hexec : Chip8.execute randByte (13 * 4096 + x * 256 + y * 16 + n) s =
      Except.ok { s with
        screen := (Screen.draw_sprite s.screen (s.v_registers x % 64)
          (s.v_registers y % 32) n
          ((List.range n).map fun k => s.memory.data (s.i_register + k))).1,
        v_registers := (updateFn (updateFn s.v_registers 15 0) 15
          (if (Screen.draw_sprite s.screen (s.v_registers x % 64)
              (s.v_registers y % 32) n
              ((List.range n).map fun k => s.memory.data (s.i_register + k))).2
            then 1 else 0)) } := by
    simp [Chip8.execute, h1, h2, h3, h4, hgb]
  refine ⟨_, hexec, ?_⟩
  intro cx cy hcx hcy
  have hsg : ∀ row, row < n →
      ((List.range n).map fun k => s.memory.data (s.i_register + k))[row]? =
        some (s.memory.data (s.i_register + row)) := by
    intro row hrow
    rw [List.getElem?_map, List.getElem?_range hrow]
    rfl
  have hiff : coversB (s.v_registers x % 64) (s.v_registers y % 32) n
      ((List.range n).map fun k => s.memory.data (s.i_register + k)) (cy * 64 + cx) = true ↔
      (∃ r, r < n ∧ ∃ c, c < 8 ∧
        s.memory.data (s.i_register + r) >>> (7 - c) &&& 0x1 = 1 ∧
        cx = s.v_registers x % 64 + c ∧ cy = s.v_registers y % 32 + r) := by
    rw [coversB_iff]
    constructor
    · rintro ⟨row, hrow, byte, hbyte, col, hcol, hxc, hyr, hbit, hidx⟩
      have hb : byte = s.memory.data (s.i_register + row) := by
        rw [hsg row hrow] at hbyte
        exact (Option.some.inj hbyte).symm
      refine ⟨row, hrow, col, hcol, ?_, ?_, ?_⟩
      · rw [← hb]
        exact hbit
      · omega
      · omega
    · rintro ⟨r, hr, c, hc, hbit, hcx', hcy'⟩
      refine ⟨r, hr, s.memory.data (s.i_register + r), hsg r hr, c, hc, ?_, ?_, hbit, ?_⟩
      · omega
      · omega
      · omega
  constructor
  · intro hcov
    have hcv := hiff.mpr hcov
    show (Screen.draw_sprite s.screen (s.v_registers x % 64) (s.v_registers y % 32) n
        ((List.range n).map fun k => s.memory.data (s.i_register + k))).1.pixels
        (cy * 64 + cx) = _
    rw [draw_sprite_pixels, hcv, Bool.xor_true]
  · intro hncov
    have hcv : coversB (s.v_registers x % 64) (s.v_registers y % 32) n
        ((List.range n).map fun k => s.memory.data (s.i_register + k)) (cy * 64 + cx) =
        false := by
      cases hcc : coversB (s.v_registers x % 64) (s.v_registers y % 32) n
        ((List.range n).map fun k => s.memory.data (s.i_register + k)) (cy * 64 + cx)
      · rfl
      · exact absurd (hiff.mp hcc) hncov
    show (Screen.draw_sprite s.screen (s.v_registers x % 64) (s.v_registers y % 32) n
        ((List.range n).map fun k => s.memory.data (s.i_register + k))).1.pixels
        (cy * 64 + cx) = _
    rw [draw_sprite_pixels, hcv, Bool.xor_false]

/-- Claim C5 witness: drawing the single row 0xFF at origin column 60
(V0 = 60), concretely instantiating the wrap-and-clip characterization. -/
theorem c5_draw_wrap_clip_witness :
    ∃ t, Chip8.execute 0 (13 * 4096 + 0 * 256 + 1 * 16 + 1) sDraw60 = Except.ok t ∧
      ∀ cx cy : Nat, cx < 64 → cy < 32 →
        ((∃ r, r < 1 ∧ ∃ c, c < 8 ∧
            sDraw60.memory.data (sDraw60.i_register + r) >>> (7 - c) &&& 0x1 = 1 ∧
            cx = sDraw60.v_registers 0 % 64 + c ∧ cy = sDraw60.v_registers 1 % 32 + r) →
          t.screen.pixels (cy * 64 + cx) = !(sDraw60.screen.pixels (cy * 64 + cx))) ∧
        (¬(∃ r, r < 1 ∧ ∃ c, c < 8 ∧
            sDraw60.memory.data (sDraw60.i_register + r) >>> (7 - c) &&& 0x1 = 1 ∧
            cx = sDraw60.v_registers 0 % 64 + c ∧ cy = sDraw60.v_registers 1 % 32 + r) →
          t.screen.pixels (cy * 64 + cx) = sDraw60.screen.pixels (cy * 64 + cx)) :=
  c5_draw_wrap_clip 0 sDraw60 0 1 1 (by norm_num) (by norm_num) (by norm_num)
    (by show (512 : Nat) + 1 ≤ 4096; norm_num)

/-- Claim C8 counterexample: for the all-zero sprite [0x00] at origin (0, 0)
on a cleared display, the first draw reports collision = false and the
second identical draw also reports collision = false — not true as the
claim states for every sprite: a sprite that draws no pixel never
collides. -/
theorem c8_counterexample :
    (Screen.init.draw_sprite 0 0 1 [0]).2 = false ∧
    ((Screen.init.draw_sprite 0 0 1 [0]).1.draw_sprite 0 0 1 [0]).2 = false :=
  ⟨rfl, rfl⟩

/-- Claim C8 (amended): for every sprite that actually draws a pixel (some
set bit lands on-screen), drawing it at a fixed origin on a cleared display
sets exactly the cells matching its non-clipped bit pattern with
collision = false, and drawing the identical sprite again at the same
origin clears exactly those cells — restoring the cleared display — with
collision = true; in general, XOR compositing makes the second identical
draw the inverse of the first on any starting screen.  (For a sprite that
draws nothing the second draw also reports false, see the
counterexample.) -/
theorem c8_xor_draw (sprite : List Nat) (x y : Nat)
    (hne : ∃ r, r < sprite.length ∧ ∃ c, c < 8 ∧
      sprite.getD r 0 >>> (7 - c) &&& 0x1 = 1 ∧ x + c < 64 ∧ y + r < 32) :
    (Screen.init.draw_sprite x y sprite.length sprite).2 = false ∧
    (∀ idx, (Screen.init.draw_sprite x y sprite.length sprite).1.pixels idx =
      coversB x y sprite.length sprite idx) ∧
    ((Screen.init.draw_sprite x y sprite.length sprite).1.draw_sprite x y
      sprite.length sprite).2 = true ∧
    (∀ idx, ((Screen.init.draw_sprite x y sprite.length sprite).1.draw_sprite x y
      sprite.length sprite).1.pixels idx = false) ∧
    (∀ scr : Screen, ∀ idx,
      ((scr.draw_sprite x y sprite.length sprite).1.draw_sprite x y
        sprite.length sprite).1.pixels idx = scr.pixels idx) := by
  obtain ⟨r, hr, c, hc, hbit, hxc, hyr⟩ := hne
  have hget : sprite[r]? = some (sprite.getD r 0) := by
    rw [List.getElem?_eq_getElem hr, List.getD_eq_getElem?_getD,
      List.getElem?_eq_getElem hr]
    rfl
  have hpix1 : ∀ idx, (Screen.init.draw_sprite x y sprite.length sprite).1.pixels idx =
      coversB x y sprite.length sprite idx := by
    intro idx
    rw [draw_sprite_pixels]
    show (false.xor _) = _
    rw [Bool.false_xor]
  have hcell : coversB x y sprite.length sprite ((y + r) * 64 + (x + c)) = true := by
    rw [coversB_iff]
    exact ⟨r, hr, sprite.getD r 0, hget, c, hc, hxc, hyr, hbit, rfl⟩
  refine ⟨?_, hpix1, ?_, ?_, ?_⟩
  · rw [draw_sprite_collision]
    cases hsc : spriteCollidesB x y sprite.length sprite Screen.init
    · rfl
    · rw [spriteCollidesB_iff] at hsc
      obtain ⟨row, _, byte, _, col, _, _, _, _, hpx⟩ := hsc
      exact absurd hpx (by simp [Screen.init])
  · rw [draw_sprite_collision, spriteCollidesB_iff]
    exact ⟨r, hr, sprite.getD r 0, hget, c, hc, hxc, hyr, hbit,
      by rw [hpix1 ((y + r) * 64 + (x + c))]; exact hcell⟩
  · intro idx
    rw [draw_sprite_pixels, hpix1 idx]
    rw [Bool.xor_self]
  · intro scr idx
    rw [draw_sprite_pixels, draw_sprite_pixels, Bool.xor_assoc, Bool.xor_self,
      Bool.xor_false]

/-- Claim C8 witness: the 8 × 5 glyph for "0" drawn twice at the origin. -/
theorem c8_xor_draw_witness :
    (Screen.init.draw_sprite 0 0 [0xF0, 0x90, 0x90, 0x90, 0xF0].length
      [0xF0, 0x90, 0x90, 0x90, 0xF0]).2 = false ∧
    (∀ idx, (Screen.init.draw_sprite 0 0 [0xF0, 0x90, 0x90, 0x90, 0xF0].length
      [0xF0, 0x90, 0x90, 0x90, 0xF0]).1.pixels idx =
      coversB 0 0 [0xF0, 0x90, 0x90, 0x90, 0xF0].length [0xF0, 0x90, 0x90, 0x90, 0xF0] idx) ∧
    ((Screen.init.draw_sprite 0 0 [0xF0, 0x90, 0x90, 0x90, 0xF0].length
      [0xF0, 0x90, 0x90, 0x90, 0xF0]).1.draw_sprite 0 0
      [0xF0, 0x90, 0x90, 0x90, 0xF0].length [0xF0, 0x90, 0x90, 0x90, 0xF0]).2 = true ∧
    (∀ idx, ((Screen.init.draw_sprite 0 0 [0xF0, 0x90, 0x90, 0x90, 0xF0].length
      [0xF0, 0x90, 0x90, 0x90, 0xF0]).1.draw_sprite 0 0
      [0xF0, 0x90, 0x90, 0x90, 0xF0].length
      [0xF0, 0x90, 0x90, 0x90, 0xF0]).1.pixels idx = false) ∧
    (∀ scr : Screen, ∀ idx,
      ((scr.draw_sprite 0 0 [0xF0, 0x90, 0x90, 0x90, 0xF0].length
        [0xF0, 0x90, 0x90, 0x90, 0xF0]).1.draw_sprite 0 0
        [0xF0, 0x90, 0x90, 0x90, 0xF0].length
        [0xF0, 0x90, 0x90, 0x90, 0xF0]).1.pixels idx = scr.pixels idx) :=
  c8_xor_draw [0xF0, 0x90, 0x90, 0x90, 0xF0] 0 0
    ⟨0, by decide, 0, by decide, by decide, by decide, by decide⟩
